import Mathlib

/-!
Shallow embedding of `ampligraph/latent_features/loss_functions.py`.

Score tensors of shape `[n, 1]` are embedded as `List ℝ`. TensorFlow
reductions, element-wise operations, `tf.reshape` and `tf.nn.softmax`
are embedded as the corresponding list operations; a failing runtime
assertion (the `tf.Assert` dependency installed by `_inputs_check`) or a
failing `tf.reshape` is embedded as an `Except` error value, since the
surrounding graph computation aborts instead of producing a scalar.
-/

namespace AmpliGraph

/-- The five concrete loss classes registered in the module, in the order
their `register_loss` decorators run at import time. -/
inductive LossVariant
  | pairwise
  | nll
  | nllAdversarial
  | absoluteMargin
  | selfAdversarial
deriving DecidableEq

/-- `class_params['require_same_size_pos_neg']` recorded in the registry for
each variant: `pairwise`, `nll` and `absolute_margin` are registered with the
decorator's default `{'require_same_size_pos_neg': True}`, while
`nll-adversarial` and `self_adversarial` pass `False` explicitly. -/
def require_same_size_pos_neg : LossVariant → Bool
  | .pairwise => true
  | .nll => true
  | .nllAdversarial => false
  | .absoluteMargin => true
  | .selfAdversarial => false

/-- `external_params` recorded in the registry for each variant. -/
def external_params : LossVariant → List String
  | .pairwise => ["margin"]
  | .nll => []
  | .nllAdversarial => ["alpha"]
  | .absoluteMargin => ["margin"]
  | .selfAdversarial => ["margin", "alpha"]

/-- The module-level `LOSS_REGISTRY` dict after the five `register_loss`
decorators have run, as an association list from loss name to class. -/
def LOSS_REGISTRY : List (String × LossVariant) :=
  [("pairwise", .pairwise),
   ("nll", .nll),
   ("nll-adversarial", .nllAdversarial),
   ("absolute_margin", .absoluteMargin),
   ("self_adversarial", .selfAdversarial)]

/-- A Python hyperparameter dict `str -> float`, embedded as a partial map. -/
def HyperparamDict : Type := String → Option ℝ

/-- The empty hyperparameter dict `{}`. -/
def emptyDict : HyperparamDict := fun _ => none

/-- A one-entry hyperparameter dict `{key: value}`. -/
def singletonDict (key : String) (value : ℝ) : HyperparamDict :=
  fun k => if k = key then some value else none

/-- A two-entry hyperparameter dict `{k1: v1, k2: v2}` (with `k1 ≠ k2`). -/
def pairDict (k1 : String) (v1 : ℝ) (k2 : String) (v2 : ℝ) : HyperparamDict :=
  fun k => if k = k1 then some v1 else if k = k2 then some v2 else none

/-- Python `hyperparam_dict.get(key, default)`: total, never raises. -/
def dictGet (d : HyperparamDict) (key : String) (default : ℝ) : ℝ :=
  (d key).getD default

/-- The `_loss_parameters` dict of a constructed loss instance: `eta` is always
stored by `Loss.__init__`; `margin` / `alpha` are stored by the variant's
`_init_hyperparams` when that variant uses them. -/
structure LossParams where
  eta : ℕ
  margin : Option ℝ
  alpha : Option ℝ

/-- Each variant's `_init_hyperparams`, run by `Loss.__init__` after storing
`eta`. Every hyperparameter is read with `dict.get(key, default)`, so every
read is total; the documented defaults are `margin=1` for `pairwise` and
`absolute_margin`, `alpha=0.5` for `nll-adversarial`, and `margin=3`,
`alpha=0.5` for `self_adversarial`. `nll` reads nothing. -/
def init_hyperparams (v : LossVariant) (eta : ℕ) (d : HyperparamDict) :
    LossParams :=
  match v with
  | .pairwise => ⟨eta, some (dictGet d "margin" 1), none⟩
  | .nll => ⟨eta, none, none⟩
  | .nllAdversarial => ⟨eta, none, some (dictGet d "alpha" 0.5)⟩
  | .absoluteMargin => ⟨eta, some (dictGet d "margin" 1), none⟩
  | .selfAdversarial => ⟨eta, some (dictGet d "margin" 3), some (dictGet d "alpha" 0.5)⟩

/-- Errors surfaced by the embedded computation: the `KeyError`-driven
exception of `Loss.__init__` (`MissingHyperparameterError` in the spec's
taxonomy), a failing `tf.Assert` size dependency (`ShapeMismatchError`),
a failing `tf.reshape` whose target shape disagrees with the element count,
and a failing broadcast of two element-wise operands whose `[n, 1]` shapes
are incompatible (both leading dimensions differ from each other and
from 1). -/
inductive LossError
  | missingHyperparameter : String → LossError
  | shapeMismatch : ℕ → ℕ → LossError
  | invalidReshape : LossError
  | broadcastMismatch : ℕ → ℕ → LossError
deriving DecidableEq

/-- `Loss.__init__(eta, hyperparam_dict)`: stores `eta`, then runs the
variant's `_init_hyperparams`, converting a `KeyError` into an eager
construction-time exception. Since every hyperparameter read in every
variant goes through `dict.get` with a default, no read can raise, and
construction always succeeds. -/
def construct (v : LossVariant) (eta : ℕ) (d : HyperparamDict) :
    Except LossError LossParams :=
  Except.ok (init_hyperparams v eta d)

/-- The error raised when an unregistered loss name is looked up.
Modelled from the spec: the registry lookup function itself lives outside
this file (only `LOSS_REGISTRY` and `register_loss` are in the source);
the spec says looking up an unregistered name fails with a
`ConfigurationError`. -/
inductive ConfigurationError
  | unregisteredLoss : String → ConfigurationError
deriving DecidableEq

/-- Modelled from the spec: `lookup(name) -> variant constructor` over the
source's `LOSS_REGISTRY`; an unregistered name fails with
`ConfigurationError`. The lookup function is not part of this source file. -/
def lookup (name : String) : Except ConfigurationError LossVariant :=
  match LOSS_REGISTRY.find? (fun p => p.1 == name) with
  | some p => Except.ok p.2
  | none => Except.error (ConfigurationError.unregisteredLoss name)

/-- `Loss._inputs_check`: rebuilds `self._dependencies`; when the registered
`require_same_size_pos_neg` is true and `eta != 1` it appends the single
`tf.Assert(tf.equal(tf.shape(scores_pos)[0], tf.shape(scores_neg)[0]), ...)`
dependency, embedded as the boolean it asserts. -/
def inputs_check (v : LossVariant) (eta : ℕ) (scores_pos scores_neg : List ℝ) :
    List Bool :=
  if require_same_size_pos_neg v = true ∧ eta ≠ 1 then
    [decide (scores_pos.length = scores_neg.length)]
  else []

/-- `tf.sigmoid` / `tf.nn.sigmoid`. -/
noncomputable def tf_sigmoid (x : ℝ) : ℝ := 1 / (1 + Real.exp (-x))

/-- A TensorFlow element-wise binary op on two `[n, 1]` column tensors,
with broadcasting along the leading dimension: equal lengths combine
position-wise, a length-1 operand is stretched against the other, and any
other pair of lengths is incompatible and the op fails at run time. -/
def broadcastWith (f : ℝ → ℝ → ℝ) (l₁ l₂ : List ℝ) : Option (List ℝ) :=
  if l₁.length = l₂.length then some (List.zipWith f l₁ l₂)
  else if l₁.length = 1 then some (l₂.map (fun y => f (l₁.getD 0 0) y))
  else if l₂.length = 1 then some (l₁.map (fun x => f x (l₂.getD 0 0)))
  else none

/-- `PairwiseLoss._apply`:
`tf.reduce_sum(tf.maximum(margin - scores_pos + scores_neg, 0))`, the
element-wise maximum over the broadcast of the two `[n, 1]` score tensors;
incompatible leading dimensions make the op fail instead of producing a
value. -/
noncomputable def PairwiseLoss_apply (margin : ℝ) (scores_pos scores_neg : List ℝ) :
    Option ℝ :=
  (broadcastWith (fun p n => max (margin - p + n) 0) scores_pos scores_neg).map
    List.sum

/-- `NLLLoss._apply`: `scores = tf.concat([-scores_pos, scores_neg], 0)`,
then `tf.reduce_sum(tf.log(1 + tf.exp(scores)))`. -/
noncomputable def NLLLoss_apply (scores_pos scores_neg : List ℝ) : ℝ :=
  ((scores_pos.map (fun x => -x) ++ scores_neg).map
    (fun x => Real.log (1 + Real.exp x))).sum

/-- `AbsoluteMarginLoss._apply`:
`tf.reduce_sum(tf.maximum(margin + scores_neg, 0) - scores_pos)`, the
element-wise combination over the broadcast of the two `[n, 1]` score
tensors; incompatible leading dimensions make the op fail. -/
noncomputable def AbsoluteMarginLoss_apply (margin : ℝ) (scores_pos scores_neg : List ℝ) :
    Option ℝ :=
  (broadcastWith (fun p n => max (margin + n) 0 - p) scores_pos scores_neg).map
    List.sum

/-- The row-major matrix `tf.reshape(l, [rows, cols])` builds when it
succeeds: row `i` is `l[i*cols : i*cols + cols]`. -/
def reshapeRows (l : List ℝ) (rows cols : ℕ) : List (List ℝ) :=
  (List.range rows).map (fun i => (l.drop (i * cols)).take cols)

/-- `tf.reshape(l, [rows, cols])`: defined exactly when the number of
elements matches the target shape, otherwise the op fails at run time. -/
def tfReshape (l : List ℝ) (rows cols : ℕ) : Option (List (List ℝ)) :=
  if l.length = rows * cols then some (reshapeRows l rows cols) else none

/-- Element-wise unary op on a matrix. -/
def matMap (f : ℝ → ℝ) (A : List (List ℝ)) : List (List ℝ) :=
  A.map (List.map f)

/-- Element-wise product of two same-shape matrices (`tf.multiply` / `*`). -/
def matMul (A B : List (List ℝ)) : List (List ℝ) :=
  List.zipWith (List.zipWith (fun x y => x * y)) A B

/-- `tf.reduce_sum` over a matrix. -/
def reduceSumMat (A : List (List ℝ)) : ℝ :=
  (A.map List.sum).sum

/-- `tf.nn.softmax(A, axis=0)`: entry `(i, j)` becomes
`exp A[i][j] / Σ_k exp A[k][j]`, the softmax taken down each column. -/
noncomputable def softmaxAxis0 (A : List (List ℝ)) : List (List ℝ) :=
  A.map (fun row => (List.range row.length).map (fun j =>
    Real.exp (row.getD j 0) / (A.map (fun r => Real.exp (r.getD j 0))).sum))

/-- `NLLOriginalLoss._apply` (the `nll-adversarial` loss): reshape
`scores_neg` to `[eta, n]`, weight by the column-wise softmax of
`alpha * scores_neg_reshaped`, and sum. -/
noncomputable def NLLOriginalLoss_apply (alpha : ℝ) (eta : ℕ)
    (scores_pos scores_neg : List ℝ) : Option ℝ :=
  (tfReshape scores_neg eta scores_pos.length).map (fun M =>
    (scores_pos.map (fun x => -Real.log (tf_sigmoid x))).sum +
      reduceSumMat (matMul (softmaxAxis0 (matMap (fun x => alpha * x) M))
        (matMap (fun x => -Real.log (tf_sigmoid (-x))) M)))

/-- `SelfAdversarialLoss._apply`: reshape `scores_neg` to `[eta, n]`,
weight by the column-wise softmax of `alpha * scores_neg_reshaped`,
and combine with the margin-shifted sigmoid terms. -/
noncomputable def SelfAdversarialLoss_apply (margin alpha : ℝ) (eta : ℕ)
    (scores_pos scores_neg : List ℝ) : Option ℝ :=
  (tfReshape scores_neg eta scores_pos.length).map (fun M =>
    (scores_pos.map (fun x => -Real.log (tf_sigmoid (margin - (-x))))).sum -
      reduceSumMat (matMul (softmaxAxis0 (matMap (fun x => alpha * x) M))
        (matMap (fun x => Real.log (tf_sigmoid (-x - margin))) M)))

/-- Dispatch to the variant's `_apply`, reading the hyperparameters the
variant stored in `_loss_parameters` (`getD` supplies the documented default,
which is what `_init_hyperparams` always stores when the key was absent).
`none` means the variant's tensor ops failed at run time. -/
noncomputable def variantApply : LossVariant → LossParams → List ℝ → List ℝ → Option ℝ
  | .pairwise, p, pos, neg => PairwiseLoss_apply (p.margin.getD 1) pos neg
  | .nll, _, pos, neg => some (NLLLoss_apply pos neg)
  | .nllAdversarial, p, pos, neg => NLLOriginalLoss_apply (p.alpha.getD 0.5) p.eta pos neg
  | .absoluteMargin, p, pos, neg => AbsoluteMarginLoss_apply (p.margin.getD 1) pos neg
  | .selfAdversarial, p, pos, neg =>
      SelfAdversarialLoss_apply (p.margin.getD 3) (p.alpha.getD 0.5) p.eta pos neg

/-- The run-time error with which a variant's `_apply` can abort: a failed
element-wise broadcast for `pairwise` and `absolute_margin`, a failed
`[eta, n]` reshape for the adversarial variants (`nll` cannot fail). -/
def applyError : LossVariant → ℕ → ℕ → LossError
  | .pairwise, a, b => LossError.broadcastMismatch a b
  | .absoluteMargin, a, b => LossError.broadcastMismatch a b
  | _, _, _ => LossError.invalidReshape

/-- `Loss.apply`: runs `_inputs_check`, evaluates `_apply` under
`tf.control_dependencies(self._dependencies)` — so a failing size assertion
aborts the computation with no loss value — and a failing broadcast or
reshape inside `_apply` likewise aborts rather than producing a scalar. -/
noncomputable def Loss.apply (v : LossVariant) (p : LossParams)
    (scores_pos scores_neg : List ℝ) : Except LossError ℝ :=
  if (inputs_check v p.eta scores_pos scores_neg).all (fun b => b) then
    match variantApply v p scores_pos scores_neg with
    | some r => Except.ok r
    | none => Except.error (applyError v scores_pos.length scores_neg.length)
  else Except.error (LossError.shapeMismatch scores_pos.length scores_neg.length)

/-! ### Helper lemmas shared by several claims -/

/-- Summing a function mapped over `List.range` is a `Finset.range` sum. -/
theorem sum_range_map (f : ℕ → ℝ) (n : ℕ) :
    ((List.range n).map f).sum = ∑ i ∈ Finset.range n, f i := by
  induction n with
  | zero => simp
  | succ n ih => rw [List.range_succ]; simp [Finset.sum_range_succ, ih]

/-- Indexing a function mapped over `List.range` within bounds. -/
theorem getD_range_map (f : ℕ → ℝ) {j n : ℕ} (h : j < n) (d : ℝ) :
    ((List.range n).map f).getD j d = f j := by
  rw [List.getD_eq_getElem?_getD, List.getElem?_map, List.getElem?_range h]
  rfl

/-- A mapped list sum as an index-wise `Finset.range` sum. -/
theorem sum_map_getD (g : ℝ → ℝ) (l : List ℝ) :
    (l.map g).sum = ∑ j ∈ Finset.range l.length, g (l.getD j 0) := by
  induction l with
  | nil => simp
  | cons a t ih =>
      rw [List.map_cons, List.sum_cons, ih, List.length_cons, Finset.sum_range_succ']
      simp [add_comm]

/-- A `zipWith` sum over equal-length lists as an index-wise sum. -/
theorem zipWith_sum_eq (f : ℝ → ℝ → ℝ) :
    ∀ (l₁ l₂ : List ℝ), l₁.length = l₂.length →
      (List.zipWith f l₁ l₂).sum
        = ∑ i ∈ Finset.range l₁.length, f (l₁.getD i 0) (l₂.getD i 0)
  | [], [], _ => by simp
  | [], _ :: _, h => by simp at h
  | _ :: _, [], h => by simp at h
  | a :: t₁, b :: t₂, h => by
      have ih := zipWith_sum_eq f t₁ t₂ (by simpa using h)
      rw [List.zipWith_cons_cons, List.sum_cons, ih, List.length_cons,
        Finset.sum_range_succ']
      simp [add_comm]

/-- Row `i` of the reshaped matrix, as an index map over the flat list. -/
theorem reshapeRows_row (neg : List ℝ) (eta n i : ℕ) (h : neg.length = eta * n)
    (hi : i < eta) :
    (neg.drop (i * n)).take n
      = (List.range n).map (fun j => neg.getD (i * n + j) 0) := by
  have hb : i * n + n ≤ eta * n := by
    have := Nat.mul_le_mul_right n (Nat.succ_le_of_lt hi)
    simpa [Nat.succ_mul] using this
  have hsub : n ≤ neg.length - i * n := by
    rw [h]
    exact Nat.le_sub_of_add_le (by rw [Nat.add_comm]; exact hb)
  apply List.ext_getElem
  · rw [List.length_take, List.length_drop, List.length_map, List.length_range]
    exact Nat.min_eq_left hsub
  · intro j h₁ h₂
    have hj : j < n := by
      rw [List.length_take] at h₁
      exact lt_of_lt_of_le h₁ (Nat.min_le_left _ _)
    have hbound : i * n + j < neg.length := by
      rw [h]
      exact lt_of_lt_of_le (Nat.add_lt_add_left hj _) hb
    rw [List.getElem_take, List.getElem_drop, List.getElem_map, List.getElem_range]
    rw [List.getD_eq_getElem?_getD, List.getElem?_eq_getElem hbound]
    rfl

/-- The reshaped matrix in rows-of-`List.range` normal form. -/
theorem reshapeRows_eq (neg : List ℝ) (eta n : ℕ) (h : neg.length = eta * n) :
    reshapeRows neg eta n
      = (List.range eta).map (fun i =>
          (List.range n).map (fun j => neg.getD (i * n + j) 0)) := by
  unfold reshapeRows
  refine List.map_congr_left (fun i hi => ?_)
  exact reshapeRows_row neg eta n i h (List.mem_range.mp hi)

/-- `matMap` on a matrix in rows normal form. -/
theorem matMap_rows (f : ℝ → ℝ) (eta n : ℕ) (a : ℕ → ℕ → ℝ) :
    matMap f ((List.range eta).map (fun i => (List.range n).map (a i)))
      = (List.range eta).map (fun i => (List.range n).map (fun j => f (a i j))) := by
  simp [matMap, List.map_map, Function.comp]

/-- `matMul` on two matrices in rows normal form. -/
theorem matMul_rows (eta n : ℕ) (a b : ℕ → ℕ → ℝ) :
    matMul ((List.range eta).map (fun i => (List.range n).map (a i)))
        ((List.range eta).map (fun i => (List.range n).map (b i)))
      = (List.range eta).map (fun i =>
          (List.range n).map (fun j => a i j * b i j)) := by
  unfold matMul
  rw [List.zipWith_map, List.zipWith_same]
  refine List.map_congr_left (fun i _ => ?_)
  rw [List.zipWith_map, List.zipWith_same]

/-- Column-wise softmax on a matrix in rows normal form. -/
theorem softmaxAxis0_rows (eta n : ℕ) (a : ℕ → ℕ → ℝ) :
    softmaxAxis0 ((List.range eta).map (fun i => (List.range n).map (a i)))
      = (List.range eta).map (fun i => (List.range n).map (fun j =>
          Real.exp (a i j) / ∑ k ∈ Finset.range eta, Real.exp (a k j))) := by
  unfold softmaxAxis0
  rw [List.map_map]
  refine List.map_congr_left (fun i _ => ?_)
  simp only [Function.comp, List.length_map, List.length_range]
  refine List.map_congr_left (fun j hj => ?_)
  have hj' := List.mem_range.mp hj
  rw [getD_range_map (a i) hj']
  congr 1
  rw [List.map_map]
  have hpt : ∀ k ∈ List.range eta,
      ((fun r : List ℝ => Real.exp (r.getD j 0)) ∘ fun k =>
        (List.range n).map (a k)) k = Real.exp (a k j) := by
    intro k _
    simp only [Function.comp]
    rw [getD_range_map (a k) hj']
  rw [List.map_congr_left hpt, sum_range_map]

/-- `reduceSumMat` on a matrix in rows normal form is a double sum. -/
theorem reduceSumMat_rows (eta n : ℕ) (a : ℕ → ℕ → ℝ) :
    reduceSumMat ((List.range eta).map (fun i => (List.range n).map (a i)))
      = ∑ i ∈ Finset.range eta, ∑ j ∈ Finset.range n, a i j := by
  unfold reduceSumMat
  rw [List.map_map]
  have hpt : ∀ i ∈ List.range eta,
      (List.sum ∘ fun i => (List.range n).map (a i)) i
        = ∑ j ∈ Finset.range n, a i j := by
    intro i _
    simp only [Function.comp]
    exact sum_range_map (a i) n
  rw [List.map_congr_left hpt, sum_range_map]

/-- The adversarially weighted negative-score sum computed by both
adversarial `_apply`s, in closed index form. -/
theorem adv_weighted_sum (alpha : ℝ) (g : ℝ → ℝ) (eta n : ℕ) (neg : List ℝ)
    (h : neg.length = eta * n) :
    reduceSumMat (matMul
        (softmaxAxis0 (matMap (fun x => alpha * x) (reshapeRows neg eta n)))
        (matMap g (reshapeRows neg eta n)))
      = ∑ i ∈ Finset.range eta, ∑ j ∈ Finset.range n,
          (Real.exp (alpha * neg.getD (i * n + j) 0)
              / ∑ k ∈ Finset.range eta, Real.exp (alpha * neg.getD (k * n + j) 0))
            * g (neg.getD (i * n + j) 0) := by
  rw [reshapeRows_eq neg eta n h, matMap_rows, matMap_rows, softmaxAxis0_rows,
    matMul_rows, reduceSumMat_rows]

/-- With `eta = 1` the softmax weights are constantly `1` and the weighted
sum collapses to the plain mapped sum over the negative scores. -/
theorem adv_weighted_sum_eta_one (alpha : ℝ) (g : ℝ → ℝ) (neg : List ℝ) :
    reduceSumMat (matMul
        (softmaxAxis0 (matMap (fun x => alpha * x) (reshapeRows neg 1 neg.length)))
        (matMap g (reshapeRows neg 1 neg.length)))
      = (neg.map g).sum := by
  rw [adv_weighted_sum alpha g 1 neg.length neg (by simp)]
  rw [Finset.sum_range_one]
  rw [sum_map_getD g neg]
  refine Finset.sum_congr rfl (fun j _ => ?_)
  rw [Finset.sum_range_one]
  simp [div_self (Real.exp_ne_zero _)]

/-- The size-assertion dependency list evaluates to all-true whenever the
variant does not require same sizes, or `eta = 1`, or the sizes agree. -/
theorem inputs_check_all_true {v : LossVariant} {eta : ℕ} {pos neg : List ℝ}
    (h : require_same_size_pos_neg v = false ∨ eta = 1 ∨ pos.length = neg.length) :
    (inputs_check v eta pos neg).all (fun b => b) = true := by
  unfold inputs_check
  rcases h with h | h | h
  · simp [h]
  · simp [h]
  · by_cases hc : require_same_size_pos_neg v = true ∧ eta ≠ 1
    · simp [hc, h]
    · simp [hc]

/-- `Loss.apply` threads a successful `_apply` through the passing checks. -/
theorem apply_eq_ok_of_checks {v : LossVariant} {p : LossParams}
    {pos neg : List ℝ} {r : ℝ}
    (hdep : (inputs_check v p.eta pos neg).all (fun b => b) = true)
    (hr : variantApply v p pos neg = some r) :
    Loss.apply v p pos neg = Except.ok r := by
  unfold Loss.apply
  rw [hdep, hr]
  rfl

/-- `Loss.apply` surfaces a failing broadcast or reshape as the variant's
run-time error. -/
theorem apply_eq_error_of_none {v : LossVariant} {p : LossParams}
    {pos neg : List ℝ}
    (hdep : (inputs_check v p.eta pos neg).all (fun b => b) = true)
    (hr : variantApply v p pos neg = none) :
    Loss.apply v p pos neg = Except.error (applyError v pos.length neg.length) := by
  unfold Loss.apply
  rw [hdep, hr]
  rfl

/-- A variant's run-time `_apply` error is never the size-assert error. -/
theorem applyError_ne_shape (v : LossVariant) (a b c d : ℕ) :
    applyError v a b ≠ LossError.shapeMismatch c d := by
  cases v <;> simp [applyError]

/-- The sigmoid at zero. -/
theorem tf_sigmoid_zero : tf_sigmoid 0 = 1 / 2 := by
  unfold tf_sigmoid
  rw [neg_zero, Real.exp_zero]
  norm_num

/-- The log-sigmoid at zero. -/
theorem log_tf_sigmoid_zero : Real.log (tf_sigmoid 0) = -Real.log 2 := by
  rw [tf_sigmoid_zero, one_div, Real.log_inv]

/-! ### Claim theorems -/

/-- Counterexample to C1 as frozen: `pairwise` constructed with `eta = 1`
and applied to mismatched lengths 3 and 4 does raise — the element-wise op
`margin - scores_pos + scores_neg` fails to broadcast `[3, 1]` against
`[4, 1]` — so `apply` is not raise-free for every mismatched pair of
lengths when `eta = 1`. -/
theorem shape_check_eta_one_counterexample :
    Loss.apply .pairwise ⟨1, some 1, none⟩ [0, 0, 0] [0, 0, 0, 0]
      = Except.error (LossError.broadcastMismatch 3 4) := by
  have hnone : variantApply .pairwise ⟨1, some 1, none⟩ [0, 0, 0] [0, 0, 0, 0]
      = none := by
    show PairwiseLoss_apply 1 [0, 0, 0] [0, 0, 0, 0] = none
    unfold PairwiseLoss_apply broadcastWith
    norm_num
  have hdep : (inputs_check .pairwise (1 : ℕ)
      ([0, 0, 0] : List ℝ) ([0, 0, 0, 0] : List ℝ)).all (fun b => b) = true :=
    inputs_check_all_true (Or.inr (Or.inl rfl))
  simpa [applyError] using apply_eq_error_of_none hdep hnone

/-- **C1 (amended).** For every loss variant whose registered
`require_same_size_pos_neg` is true (`pairwise`, `nll`, `absolute_margin`)
constructed with `eta ≠ 1`, `apply` on score lists of different lengths
aborts with the shape-mismatch error and never produces a loss value.
With `eta = 1` the size-equality assertion is never installed, so the
shape-mismatch error cannot occur for any pair of lengths, and `nll`
(whose concat works on any lengths) returns a loss for every input; but
`pairwise` and `absolute_margin` still abort — with a broadcast error from
the element-wise op, not the size assert — whenever the two lengths differ
and neither is 1. -/
theorem shape_check_iff_eta_ne_one (v : LossVariant)
    (hv : v = .pairwise ∨ v = .nll ∨ v = .absoluteMargin)
    (p : LossParams) (pos neg : List ℝ) :
    (p.eta ≠ 1 → pos.length ≠ neg.length →
      Loss.apply v p pos neg
        = Except.error (LossError.shapeMismatch pos.length neg.length)) ∧
    (p.eta = 1 → ∀ a b : ℕ,
      Loss.apply v p pos neg ≠ Except.error (LossError.shapeMismatch a b)) ∧
    (p.eta = 1 → v = .nll →
      ∃ r : ℝ, Loss.apply v p pos neg = Except.ok r) ∧
    (p.eta = 1 → (v = .pairwise ∨ v = .absoluteMargin) →
      pos.length ≠ neg.length → pos.length ≠ 1 → neg.length ≠ 1 →
      Loss.apply v p pos neg
        = Except.error (LossError.broadcastMismatch pos.length neg.length)) := by
  have hreq : require_same_size_pos_neg v = true := by
    rcases hv with h | h | h <;> subst h <;> rfl
  refine ⟨?_, ?_, ?_, ?_⟩
  · intro h1 h2
    unfold Loss.apply
    have hdep : (inputs_check v p.eta pos neg).all (fun b => b) = false := by
      unfold inputs_check
      simp [hreq, h1, h2]
    rw [hdep]
    rfl
  · intro h1 a b
    have hdep : (inputs_check v p.eta pos neg).all (fun b => b) = true :=
      inputs_check_all_true (Or.inr (Or.inl h1))
    unfold Loss.apply
    rw [hdep]
    cases hva : variantApply v p pos neg with
    | some r => simp
    | none => simp [applyError_ne_shape]
  · intro h1 hv2
    subst hv2
    exact ⟨_, apply_eq_ok_of_checks
      (inputs_check_all_true (Or.inr (Or.inl h1))) rfl⟩
  · intro h1 hv2 h2 h3 h4
    have hbc : ∀ f : ℝ → ℝ → ℝ, broadcastWith f pos neg = none := by
      intro f
      unfold broadcastWith
      rw [if_neg h2, if_neg h3, if_neg h4]
    rcases hv2 with h' | h' <;> subst h'
    · refine apply_eq_error_of_none
        (inputs_check_all_true (Or.inr (Or.inl h1))) ?_
      show PairwiseLoss_apply (p.margin.getD 1) pos neg = none
      unfold PairwiseLoss_apply
      rw [hbc]
      rfl
    · refine apply_eq_error_of_none
        (inputs_check_all_true (Or.inr (Or.inl h1))) ?_
      show AbsoluteMarginLoss_apply (p.margin.getD 1) pos neg = none
      unfold AbsoluteMarginLoss_apply
      rw [hbc]
      rfl

/-- Witness for C1 (amended): `pairwise` with `eta = 2` on lengths 3 and 4
aborts with the size assert; `nll` with `eta = 1` on lengths 1 and 2 still
returns a loss value; `absolute_margin` with `eta = 1` on lengths 2 and 3
aborts with a broadcast error instead. -/
theorem shape_check_iff_eta_ne_one_witness :
    Loss.apply .pairwise ⟨2, some 1, none⟩ [0, 0, 0] [0, 0, 0, 0]
        = Except.error (LossError.shapeMismatch 3 4) ∧
    (∃ r : ℝ, Loss.apply .nll ⟨1, none, none⟩ [0] [0, 0] = Except.ok r) ∧
    Loss.apply .absoluteMargin ⟨1, some 1, none⟩ [0, 0] [0, 0, 0]
        = Except.error (LossError.broadcastMismatch 2 3) := by
  refine ⟨?_, ?_, ?_⟩
  · have := (shape_check_iff_eta_ne_one .pairwise (Or.inl rfl)
      ⟨2, some 1, none⟩ [0, 0, 0] [0, 0, 0, 0]).1 (by norm_num) (by norm_num)
    simpa using this
  · exact (shape_check_iff_eta_ne_one .nll (Or.inr (Or.inl rfl))
      ⟨1, none, none⟩ [0] [0, 0]).2.2.1 rfl rfl
  · have := (shape_check_iff_eta_ne_one .absoluteMargin (Or.inr (Or.inr rfl))
      ⟨1, some 1, none⟩ [0, 0] [0, 0, 0]).2.2.2 rfl (Or.inr rfl)
      (by norm_num) (by norm_num) (by norm_num)
    simpa using this

/-- **C2.** For equal-length score lists and any margin, `PairwiseLoss.apply`
returns the sum over positions `i` of
`max(0, margin - scores_pos[i] + scores_neg[i])` — position-aligned, not a
full cross product. -/
theorem pairwise_apply_eq_aligned_hinge_sum (eta : ℕ) (margin : ℝ)
    (a : Option ℝ) (pos neg : List ℝ) (h : pos.length = neg.length) :
    Loss.apply .pairwise ⟨eta, some margin, a⟩ pos neg
      = Except.ok (∑ i ∈ Finset.range pos.length,
          max 0 (margin - pos.getD i 0 + neg.getD i 0)) := by
  refine apply_eq_ok_of_checks (inputs_check_all_true (Or.inr (Or.inr h))) ?_
  show PairwiseLoss_apply margin pos neg = _
  unfold PairwiseLoss_apply broadcastWith
  rw [if_pos h, Option.map_some']
  rw [zipWith_sum_eq _ pos neg h]
  refine congrArg some (Finset.sum_congr rfl (fun i _ => ?_))
  exact max_comm _ _

/-- Witness for C2: the spec's two concrete pairwise cases with margin 1:
`[2.0]` against `[0.5]` gives `0`, and `[0.0]` against `[0.0]` gives `1`. -/
theorem pairwise_apply_eq_aligned_hinge_sum_witness :
    Loss.apply .pairwise ⟨1, some 1, none⟩ [2] [0.5] = Except.ok 0 ∧
    Loss.apply .pairwise ⟨1, some 1, none⟩ [0] [0] = Except.ok 1 := by
  constructor
  · rw [pairwise_apply_eq_aligned_hinge_sum 1 1 none [2] [0.5] rfl]
    norm_num [Finset.sum_range_one]
  · rw [pairwise_apply_eq_aligned_hinge_sum 1 1 none [0] [0] rfl]
    norm_num [Finset.sum_range_one]

/-- **C3.** `NLLLoss.apply` returns the sum of `log(1 + exp x)` over the
concatenation of the negated positive scores with the negative scores
(stated here as the two partial sums of that concatenation), whenever the
size check passes (`eta = 1` or equal lengths). -/
theorem nll_apply_eq_softplus_sum (p : LossParams) (pos neg : List ℝ)
    (h : p.eta = 1 ∨ pos.length = neg.length) :
    Loss.apply .nll p pos neg
      = Except.ok ((pos.map (fun x => Real.log (1 + Real.exp (-x)))).sum
          + (neg.map (fun x => Real.log (1 + Real.exp x))).sum) := by
  refine apply_eq_ok_of_checks
    (inputs_check_all_true (h.elim (fun h1 => Or.inr (Or.inl h1))
      (fun h2 => Or.inr (Or.inr h2)))) ?_
  show some (NLLLoss_apply pos neg) = _
  unfold NLLLoss_apply
  rw [List.map_append, List.sum_append, List.map_map]
  rfl

/-- Witness for C3: the spec's concrete case `[0.0]` vs `[0.0]` gives
`2 · log 2`. -/
theorem nll_apply_eq_softplus_sum_witness :
    Loss.apply .nll ⟨1, none, none⟩ [0] [0] = Except.ok (2 * Real.log 2) := by
  rw [nll_apply_eq_softplus_sum ⟨1, none, none⟩ [0] [0] (Or.inl rfl)]
  norm_num [Real.exp_zero]
  ring

/-- **C4.** For equal-length score lists and any margin,
`AbsoluteMarginLoss.apply` returns the sum over positions `i` of
`max(0, margin + scores_neg[i]) - scores_pos[i]`. -/
theorem absolute_margin_apply_eq_sum (eta : ℕ) (margin : ℝ)
    (a : Option ℝ) (pos neg : List ℝ) (h : pos.length = neg.length) :
    Loss.apply .absoluteMargin ⟨eta, some margin, a⟩ pos neg
      = Except.ok (∑ i ∈ Finset.range pos.length,
          (max 0 (margin + neg.getD i 0) - pos.getD i 0)) := by
  refine apply_eq_ok_of_checks (inputs_check_all_true (Or.inr (Or.inr h))) ?_
  show AbsoluteMarginLoss_apply margin pos neg = _
  unfold AbsoluteMarginLoss_apply broadcastWith
  rw [if_pos h, Option.map_some']
  rw [zipWith_sum_eq _ pos neg h]
  refine congrArg some (Finset.sum_congr rfl (fun i _ => ?_))
  rw [max_comm]

/-- Witness for C4: the spec's concrete case margin 1, `[3.0]` vs `[-2.0]`
gives `-3`. -/
theorem absolute_margin_apply_eq_sum_witness :
    Loss.apply .absoluteMargin ⟨1, some 1, none⟩ [3] [-2] = Except.ok (-3) := by
  rw [absolute_margin_apply_eq_sum 1 1 none [3] [-2] rfl]
  norm_num [Finset.sum_range_one]

/-- **C5.** For `nll-adversarial` with `eta` negatives per positive and
`n = len(scores_pos)`, whenever `len(scores_neg) = eta * n`, `apply` returns
`sum(-log(sigmoid(scores_pos)))` plus the sum over the `[eta, n]` reshape
`M[i][j] = scores_neg[i*n + j]` of `p_neg[i][j] * -log(sigmoid(-M[i][j]))`,
with `p_neg` the column-wise softmax of `alpha * M`. -/
theorem nll_adversarial_apply_eq_weighted_sum (alpha : ℝ) (eta : ℕ)
    (m : Option ℝ) (pos neg : List ℝ) (h : neg.length = eta * pos.length) :
    Loss.apply .nllAdversarial ⟨eta, m, some alpha⟩ pos neg
      = Except.ok ((pos.map (fun x => -Real.log (tf_sigmoid x))).sum
          + ∑ i ∈ Finset.range eta, ∑ j ∈ Finset.range pos.length,
              (Real.exp (alpha * neg.getD (i * pos.length + j) 0)
                  / ∑ k ∈ Finset.range eta,
                      Real.exp (alpha * neg.getD (k * pos.length + j) 0))
                * (-Real.log (tf_sigmoid (-neg.getD (i * pos.length + j) 0)))) := by
  refine apply_eq_ok_of_checks (inputs_check_all_true (Or.inl rfl)) ?_
  show NLLOriginalLoss_apply alpha eta pos neg = _
  unfold NLLOriginalLoss_apply tfReshape
  rw [if_pos h, Option.map_some']
  rw [adv_weighted_sum alpha _ eta pos.length neg h]

/-- Witness for C5: `alpha = 1`, `eta = 2`, `scores_pos = [0]`,
`scores_neg = [0, 0]` gives `2 · log 2` (each softmax weight is `1/2`). -/
theorem nll_adversarial_apply_eq_weighted_sum_witness :
    Loss.apply .nllAdversarial ⟨2, none, some 1⟩ [0] [0, 0]
      = Except.ok (2 * Real.log 2) := by
  rw [nll_adversarial_apply_eq_weighted_sum 1 2 none [0] [0, 0] (by norm_num)]
  norm_num [Finset.sum_range_succ, Finset.sum_range_one, Real.exp_zero,
    log_tf_sigmoid_zero]
  ring

/-- **C6.** For `self_adversarial` with `eta` negatives per positive and
`n = len(scores_pos)`, whenever `len(scores_neg) = eta * n`, `apply` returns
`sum(-log(sigmoid(margin - (-scores_pos))))` minus the sum over the
`[eta, n]` reshape `M[i][j] = scores_neg[i*n + j]` of
`p_neg[i][j] * log(sigmoid(-M[i][j] - margin))`, with `p_neg` the
column-wise softmax of `alpha * M`. -/
theorem self_adversarial_apply_eq_weighted_sum (margin alpha : ℝ) (eta : ℕ)
    (pos neg : List ℝ) (h : neg.length = eta * pos.length) :
    Loss.apply .selfAdversarial ⟨eta, some margin, some alpha⟩ pos neg
      = Except.ok ((pos.map (fun x => -Real.log (tf_sigmoid (margin - (-x))))).sum
          - ∑ i ∈ Finset.range eta, ∑ j ∈ Finset.range pos.length,
              (Real.exp (alpha * neg.getD (i * pos.length + j) 0)
                  / ∑ k ∈ Finset.range eta,
                      Real.exp (alpha * neg.getD (k * pos.length + j) 0))
                * Real.log (tf_sigmoid (-neg.getD (i * pos.length + j) 0 - margin))) := by
  refine apply_eq_ok_of_checks (inputs_check_all_true (Or.inl rfl)) ?_
  show SelfAdversarialLoss_apply margin alpha eta pos neg = _
  unfold SelfAdversarialLoss_apply tfReshape
  rw [if_pos h, Option.map_some']
  rw [adv_weighted_sum alpha _ eta pos.length neg h]

/-- Witness for C6: `margin = 0`, `alpha = 1`, `eta = 2`,
`scores_pos = [0]`, `scores_neg = [0, 0]` gives `2 · log 2`. -/
theorem self_adversarial_apply_eq_weighted_sum_witness :
    Loss.apply .selfAdversarial ⟨2, some 0, some 1⟩ [0] [0, 0]
      = Except.ok (2 * Real.log 2) := by
  rw [self_adversarial_apply_eq_weighted_sum 0 1 2 [0] [0, 0] (by norm_num)]
  norm_num [Finset.sum_range_succ, Finset.sum_range_one, Real.exp_zero,
    log_tf_sigmoid_zero]
  ring

/-- **C7.** No variant reads a hyperparameter without a default (every read
goes through `dict.get` with a default), so the missing-required-
hyperparameter error can never fire and construction always succeeds
eagerly; a supplied hyperparameter is stored verbatim, and an omitted one
resolves to its documented default: `margin = 1` for `pairwise` and
`absolute_margin`, `margin = 3` and `alpha = 0.5` for `self_adversarial`,
`alpha = 0.5` for `nll-adversarial`. -/
theorem hyperparam_defaults_and_verbatim (eta : ℕ) (d : HyperparamDict)
    (x y : ℝ) :
    (∀ v : LossVariant, construct v eta d = Except.ok (init_hyperparams v eta d)) ∧
    (init_hyperparams .pairwise eta (singletonDict "margin" x)).margin = some x ∧
    (init_hyperparams .absoluteMargin eta (singletonDict "margin" x)).margin = some x ∧
    (init_hyperparams .nllAdversarial eta (singletonDict "alpha" y)).alpha = some y ∧
    (init_hyperparams .selfAdversarial eta
      (pairDict "margin" x "alpha" y)).margin = some x ∧
    (init_hyperparams .selfAdversarial eta
      (pairDict "margin" x "alpha" y)).alpha = some y ∧
    (init_hyperparams .pairwise eta emptyDict).margin = some 1 ∧
    (init_hyperparams .absoluteMargin eta emptyDict).margin = some 1 ∧
    (init_hyperparams .selfAdversarial eta emptyDict).margin = some 3 ∧
    (init_hyperparams .selfAdversarial eta emptyDict).alpha = some 0.5 ∧
    (init_hyperparams .nllAdversarial eta emptyDict).alpha = some 0.5 := by
  refine ⟨fun v => rfl, ?_, ?_, ?_, ?_, ?_, ?_, ?_, ?_, ?_, ?_⟩ <;>
    simp [init_hyperparams, singletonDict, pairDict, emptyDict, dictGet]

/-- **C8.** Every registered loss name looks up to a constructible variant
(construction succeeds for every `eta` and configuration), and looking up
any name outside the registry fails with the configuration error. -/
theorem registry_lookup_spec (name : String)
    (h : LOSS_REGISTRY.all (fun p => p.1 != name) = true) :
    lookup "pairwise" = Except.ok .pairwise ∧
    lookup "nll" = Except.ok .nll ∧
    lookup "nll-adversarial" = Except.ok .nllAdversarial ∧
    lookup "absolute_margin" = Except.ok .absoluteMargin ∧
    lookup "self_adversarial" = Except.ok .selfAdversarial ∧
    (∀ v : LossVariant, ∀ eta : ℕ, ∀ d : HyperparamDict,
      (construct v eta d).isOk = true) ∧
    lookup name = Except.error (ConfigurationError.unregisteredLoss name) := by
  refine ⟨rfl, rfl, rfl, rfl, rfl, fun v eta d => rfl, ?_⟩
  unfold lookup
  have hnone : LOSS_REGISTRY.find? (fun p => p.1 == name) = none := by
    rw [List.find?_eq_none]
    intro p hp
    have hne := List.all_eq_true.mp h p hp
    simpa using hne
  rw [hnone]

/-- Witness for C8: the unregistered name `"foo"` fails with the
configuration error. -/
theorem registry_lookup_spec_witness :
    lookup "foo" = Except.error (ConfigurationError.unregisteredLoss "foo") :=
  (registry_lookup_spec "foo" (by decide)).2.2.2.2.2.2

/-- **C9.** With `eta = 1`, the softmax weighting `p_neg` of both
adversarial variants is constantly `1`, so on equal-length score lists the
adversarially-weighted loss equals its non-adversarial analog:
`nll-adversarial` returns
`sum(-log(sigmoid(scores_pos))) + sum(-log(sigmoid(-scores_neg)))`, and
`self_adversarial` likewise loses its weighting. -/
theorem adversarial_eta_one_reduces (margin alpha : ℝ) (m : Option ℝ)
    (pos neg : List ℝ) (h : neg.length = pos.length) :
    Loss.apply .nllAdversarial ⟨1, m, some alpha⟩ pos neg
        = Except.ok ((pos.map (fun x => -Real.log (tf_sigmoid x))).sum
            + (neg.map (fun x => -Real.log (tf_sigmoid (-x)))).sum) ∧
    Loss.apply .selfAdversarial ⟨1, some margin, some alpha⟩ pos neg
        = Except.ok ((pos.map (fun x => -Real.log (tf_sigmoid (margin - (-x))))).sum
            - (neg.map (fun x => Real.log (tf_sigmoid (-x - margin)))).sum) := by
  have h1 : neg.length = 1 * pos.length := by simpa using h
  constructor
  · refine apply_eq_ok_of_checks (inputs_check_all_true (Or.inl rfl)) ?_
    show NLLOriginalLoss_apply alpha 1 pos neg = _
    unfold NLLOriginalLoss_apply tfReshape
    rw [if_pos h1, Option.map_some', ← h,
      adv_weighted_sum_eta_one alpha _ neg]
  · refine apply_eq_ok_of_checks (inputs_check_all_true (Or.inl rfl)) ?_
    show SelfAdversarialLoss_apply margin alpha 1 pos neg = _
    unfold SelfAdversarialLoss_apply tfReshape
    rw [if_pos h1, Option.map_some', ← h,
      adv_weighted_sum_eta_one alpha _ neg]

/-- Witness for C9: with `eta = 1`, `alpha = 1` (and `margin = 0` for the
self-adversarial variant), `scores_pos = [0]`, `scores_neg = [0]`, both
variants produce the hand-computed scalar `2 · log 2`. -/
theorem adversarial_eta_one_reduces_witness :
    Loss.apply .nllAdversarial ⟨1, none, some 1⟩ [0] [0]
        = Except.ok (2 * Real.log 2) ∧
    Loss.apply .selfAdversarial ⟨1, some 0, some 1⟩ [0] [0]
        = Except.ok (2 * Real.log 2) := by
  have H := adversarial_eta_one_reduces 0 1 none [0] [0] rfl
  constructor
  · rw [H.1]
    norm_num [log_tf_sigmoid_zero]
    ring
  · rw [H.2]
    norm_num [log_tf_sigmoid_zero]
    ring

/-- **C10.** The adversarial variants (`require_same_size_pos_neg = false`)
install no size-equality dependency for any `eta` or inputs, and whenever
`len(scores_neg) ≠ eta * len(scores_pos)` the `[eta, n]` reshape inside
`_apply` fails, so `apply` aborts rather than returning a scalar. -/
theorem adversarial_no_size_dependency_and_reshape_guard (v : LossVariant)
    (hv : v = .nllAdversarial ∨ v = .selfAdversarial)
    (eta2 : ℕ) (p : LossParams) (pos neg pos2 neg2 : List ℝ)
    (h : neg.length ≠ p.eta * pos.length) :
    inputs_check v eta2 pos2 neg2 = [] ∧
    Loss.apply v p pos neg = Except.error LossError.invalidReshape := by
  have hreq : require_same_size_pos_neg v = false := by
    rcases hv with h' | h' <;> subst h' <;> rfl
  constructor
  · unfold inputs_check
    simp [hreq]
  · rcases hv with h' | h' <;> subst h'
    · refine apply_eq_error_of_none (inputs_check_all_true (Or.inl rfl)) ?_
      show NLLOriginalLoss_apply _ p.eta pos neg = none
      unfold NLLOriginalLoss_apply tfReshape
      rw [if_neg h, Option.map_none']
    · refine apply_eq_error_of_none (inputs_check_all_true (Or.inl rfl)) ?_
      show SelfAdversarialLoss_apply _ _ p.eta pos neg = none
      unfold SelfAdversarialLoss_apply tfReshape
      rw [if_neg h, Option.map_none']

/-- Witness for C10: `nll-adversarial` with `eta = 2` on one positive and
one negative score (so `1 ≠ 2 · 1`) aborts with the reshape error, and the
dependency list is empty even for a mismatched pair with `eta = 7`. -/
theorem adversarial_no_size_dependency_and_reshape_guard_witness :
    inputs_check .nllAdversarial 7 [0, 0] [0, 0, 0] = [] ∧
    Loss.apply .nllAdversarial ⟨2, none, some 1⟩ [0] [0]
        = Except.error LossError.invalidReshape :=
  adversarial_no_size_dependency_and_reshape_guard .nllAdversarial (Or.inl rfl)
    7 ⟨2, none, some 1⟩ [0] [0] [0, 0] [0, 0, 0] (by norm_num)

end AmpliGraph
